import Mathlib

/- Shallow embedding of the analyzer core of the code-review repository:
   `src/analyzer/aiAnalyzer.ts` (prompt building, reply parsing, position
   resolution, orchestration), `src/analyzer/mockAnalyzer.ts`, the unnamed
   mock-analyzer variant, and the data model of `src/github/types.ts`.
   JavaScript strings are modelled as `String` / `List Char`, JavaScript
   numbers as `Nat` / `Int` (the quantities involved are integer-valued),
   optional fields as `Option`, and thrown errors as `Except`. -/

namespace CodeReview

/-- Severity levels of `ReviewIssue` (src/github/types.ts). -/
inductive Severity where
  | low
  | medium
  | high
deriving DecidableEq, Repr

/-- Issue categories of `ReviewIssue` (src/github/types.ts). -/
inductive IssueType where
  | style
  | performance
  | security
  | bug
  | improvement
deriving DecidableEq, Repr

/-- Model of `PRDiff` (src/github/types.ts): one changed file of the pull request. -/
structure PRDiff where
  filename : String
  patch : Option String
  additions : Nat
  deletions : Nat
  changes : Nat
  status : String
deriving DecidableEq, Repr

/-- Model of `ReviewComment` (src/github/types.ts). -/
structure ReviewComment where
  path : String
  position : Option Nat
  body : String
deriving DecidableEq, Repr

/-- Model of `ReviewIssue` (src/github/types.ts). -/
structure ReviewIssue where
  type : IssueType
  severity : Severity
  message : String
  suggestion : Option String
  line : Option Int
  file : String
deriving DecidableEq, Repr

/-- Model of `ReviewResult` (src/github/types.ts). -/
structure ReviewResult where
  comments : List ReviewComment
  issues : List ReviewIssue
  summary : String
deriving DecidableEq, Repr

/-- ASCII digit test, the `\d` character class. -/
def isDigitC (c : Char) : Bool := c.isDigit

/-- Value of `parseInt(s, 10)` on a nonempty all-digit string. -/
def digitsToNat (l : List Char) : Nat :=
  l.foldl (fun n c => n * 10 + (c.toNat - 48)) 0

/-- Model of `patch.split('\n')`: JavaScript split on a single-character separator
(`"".split('\n')` gives `[""]`, a trailing separator yields a final `""`). -/
def splitNl : List Char → List (List Char)
  | [] => [[]]
  | c :: t =>
    if c = '\n' then [] :: splitNl t
    else
      match splitNl t with
      | [] => [[c]]
      | l :: ls => (c :: l) :: ls

/-- Match of the regex `@@ -\d+,\d+ \+(\d+),\d+ @@` at the head of `s`,
returning the captured group as `parseInt(match[1], 10)`. In this pattern
every `\d+` is followed by a non-digit, so greedy maximal munch is exact
and no backtracking can change the outcome. -/
def hunkAt (s : List Char) : Option Nat :=
  match s with
  | '@' :: '@' :: ' ' :: '-' :: t =>
    let d1 := t.takeWhile isDigitC
    if d1.isEmpty then none
    else
      match t.drop d1.length with
      | ',' :: t2 =>
        let d2 := t2.takeWhile isDigitC
        if d2.isEmpty then none
        else
          match t2.drop d2.length with
          | ' ' :: '+' :: t3 =>
            let d3 := t3.takeWhile isDigitC
            if d3.isEmpty then none
            else
              match t3.drop d3.length with
              | ',' :: t4 =>
                let d4 := t4.takeWhile isDigitC
                if d4.isEmpty then none
                else
                  match t4.drop d4.length with
                  | ' ' :: '@' :: '@' :: _ => some (digitsToNat d3)
                  | _ => none
              | _ => none
          | _ => none
      | _ => none
  | _ => none

/-- Leftmost unanchored occurrence of the hunk-header regex inside a line
(`line.match(/@@ -\d+,\d+ \+(\d+),\d+ @@/)`). -/
def findHunk : List Char → Option Nat
  | [] => none
  | c :: t =>
    match hunkAt (c :: t) with
    | some v => some v
    | none => findHunk t

/-- Test `line.startsWith('@@')`. -/
def isHdrLine : List Char → Bool
  | '@' :: '@' :: _ => true
  | _ => false

/-- Test `line.startsWith('-')`. -/
def headIsDash : List Char → Bool
  | '-' :: _ => true
  | _ => false

/-- The loop of `calculatePosition` (aiAnalyzer.ts 265-300): `pos` is the
position counter, incremented on every patch line including hunk headers;
`cur` is the new-file line counter. On a line starting with `@@` the
counter is reset when the header regex matches, and the equality test is
skipped (`continue`); on any other line the counter advances unless the
line starts with `-`, and the first line on which it equals the target is
returned. -/
def posAux : List (List Char) → Nat → Int → Int → Option Nat
  | [], _, _, _ => none
  | l :: ls, pos, cur, t =>
    if isHdrLine l then
      match findHunk l with
      | some st => posAux ls (pos + 1) ((st : Int) - 1) t
      | none => posAux ls (pos + 1) cur t
    else
      let cur' := if headIsDash l then cur else cur + 1
      if cur' = t then some (pos + 1) else posAux ls (pos + 1) cur' t

/-- Model of `calculatePosition(patch, targetLine)` (aiAnalyzer.ts 265-300). The
surrounding `try/catch` never fires: the body is total. -/
def calculatePosition (patch : String) (targetLine : Int) : Option Nat :=
  posAux (splitNl patch.data) 0 0 targetLine

/-- New-file counter update for one scanned line, as the spec describes
it: reset to `start - 1` on a hunk header, unchanged on a deletion line,
incremented on every other line. -/
def counterStep (cur : Int) (l : List Char) : Int :=
  if isHdrLine l then
    match findHunk l with
    | some st => (st : Int) - 1
    | none => cur
  else if headIsDash l then cur else cur + 1

/-- Counter value attributed to each line in turn, starting from `cur`. -/
def countersFrom (cur : Int) : List (List Char) → List Int
  | [] => []
  | l :: ls =>
    let c := counterStep cur l
    c :: countersFrom c ls

/-- 1-based index of the first line whose attributed counter equals the
target, with lines starting `@@` excluded from the equality test. -/
def firstMatchIdx (t : Int) : List (List Char × Int) → Option Nat
  | [] => none
  | (l, c) :: rest =>
    if isHdrLine l then (firstMatchIdx t rest).map (· + 1)
    else if c = t then some 1 else (firstMatchIdx t rest).map (· + 1)

/-- Position resolution restated declaratively: pair every patch line
with its counter value and return the first non-header line where the
counter equals the target. -/
def specResolve (patch : String) (t : Int) : Option Nat :=
  let lines := splitNl patch.data
  firstMatchIdx t (lines.zip (countersFrom 0 lines))

/-- Modelled from the spec sentence of C1 read literally: the 1-based
index of the first scanned line at which the counter equals the target,
hunk-header lines included in the equality test. -/
def firstMatchIdxAll (t : Int) : List (List Char × Int) → Option Nat
  | [] => none
  | (_, c) :: rest =>
    if c = t then some 1 else (firstMatchIdxAll t rest).map (· + 1)

/-- The resolver the C1 sentence describes, literally. -/
def specClaimResolve (patch : String) (t : Int) : Option Nat :=
  let lines := splitNl patch.data
  firstMatchIdxAll t (lines.zip (countersFrom 0 lines))

theorem posAux_eq_firstMatch (lines : List (List Char)) :
    ∀ (pos : Nat) (cur t : Int),
      posAux lines pos cur t =
        (firstMatchIdx t (lines.zip (countersFrom cur lines))).map (fun i => pos + i) := by
  induction lines with
  | nil => intro pos cur t; simp [posAux, countersFrom, firstMatchIdx]
  | cons l ls ih =>
    intro pos cur t
    have hcons : (l :: ls).zip (countersFrom cur (l :: ls)) =
        (l, counterStep cur l) :: ls.zip (countersFrom (counterStep cur l) ls) := rfl
    rw [hcons]
    by_cases hl : isHdrLine l = true
    · rw [show firstMatchIdx t
          ((l, counterStep cur l) :: ls.zip (countersFrom (counterStep cur l) ls)) =
          (firstMatchIdx t (ls.zip (countersFrom (counterStep cur l) ls))).map (· + 1) from by
        simp [firstMatchIdx, hl]]
      cases hf : findHunk l with
      | some st =>
        have hstep : counterStep cur l = (st : Int) - 1 := by simp [counterStep, hl, hf]
        have hp : posAux (l :: ls) pos cur t = posAux ls (pos + 1) ((st : Int) - 1) t := by
          simp [posAux, hl, hf]
        rw [hstep, hp, ih]
        cases firstMatchIdx t (ls.zip (countersFrom ((st : Int) - 1) ls)) <;> simp <;> omega
      | none =>
        have hstep : counterStep cur l = cur := by simp [counterStep, hl, hf]
        have hp : posAux (l :: ls) pos cur t = posAux ls (pos + 1) cur t := by
          simp [posAux, hl, hf]
        rw [hstep, hp, ih]
        cases firstMatchIdx t (ls.zip (countersFrom cur ls)) <;> simp <;> omega
    · have hstep : counterStep cur l = (if headIsDash l then cur else cur + 1) := by
        simp [counterStep, hl]
      rw [show firstMatchIdx t
          ((l, counterStep cur l) :: ls.zip (countersFrom (counterStep cur l) ls)) =
          (if counterStep cur l = t then some 1 else
            (firstMatchIdx t (ls.zip (countersFrom (counterStep cur l) ls))).map (· + 1)) from by
        simp [firstMatchIdx, hl]]
      by_cases hc : (if headIsDash l then cur else cur + 1) = t
      · have hp : posAux (l :: ls) pos cur t = some (pos + 1) := by
          simp only [posAux, hl, Bool.false_eq_true, if_false]
          rw [if_pos hc]
        rw [hp, if_pos (show counterStep cur l = t by rw [hstep]; exact hc)]
        simp
      · have hp : posAux (l :: ls) pos cur t =
            posAux ls (pos + 1) (if headIsDash l then cur else cur + 1) t := by
          simp only [posAux, hl, Bool.false_eq_true, if_false]
          rw [if_neg hc]
        rw [hp, if_neg (show ¬counterStep cur l = t by rw [hstep]; exact hc), ih, hstep]
        cases firstMatchIdx t
            (ls.zip (countersFrom (if headIsDash l then cur else cur + 1) ls)) <;>
          simp <;> omega

/-- C1 (amended): resolving target line 3 = start + 2 in the synthetic
single-hunk patch returns position 4, the second added line counting the
hunk header; and in general the returned position is that of the first
scanned non-header line at which the new-file counter (reset to
`start - 1` on each hunk header, incremented on every non-deletion line)
equals the target — the equality test is skipped on hunk-header lines
themselves. -/
theorem c1_roundtrip_and_first_match :
    calculatePosition "@@ -1,3 +1,4 @@\n ctx1\n+add1\n+add2\n ctx2" 3 = some 4 ∧
    ∀ (patch : String) (t : Int), calculatePosition patch t = specResolve patch t := by
  constructor
  · decide
  · intro patch t
    unfold calculatePosition specResolve
    rw [posAux_eq_firstMatch]
    cases firstMatchIdx t ((splitNl patch.data).zip (countersFrom 0 (splitNl patch.data))) <;>
      simp

/-- C1 counterexample: in `"@@ -1,1 +2,1 @@\n-x"` with target 1 the first
scanned line at which the counter equals the target is the hunk header
itself (the reset makes the counter `2 - 1 = 1` there), so the claimed
rule yields position 1; `calculatePosition` skips the test on header
lines and returns position 2, the deletion line. -/
theorem c1_header_reset_counterexample :
    specClaimResolve "@@ -1,1 +2,1 @@\n-x" 1 = some 1 ∧
    calculatePosition "@@ -1,1 +2,1 @@\n-x" 1 = some 2 := by
  constructor <;> decide

/-- C2 counterexample: the empty patch has zero hunk headers, yet target
line 1 resolves to position 1 — every line that does not start with `-`
advances the new-file counter, hunks or not. -/
theorem c2_zero_hunks_counterexample :
    ((splitNl "".data).all fun l => !isHdrLine l) = true ∧
    calculatePosition "" 1 = some 1 := by
  constructor <;> decide

theorem posAux_plain (lines : List (List Char)) :
    ∀ (pos : Nat) (cur t : Int),
      (∀ l ∈ lines, isHdrLine l = false ∧ headIsDash l = false) →
      posAux lines pos cur t =
        if cur < t ∧ t ≤ cur + lines.length then some (pos + (t - cur).toNat) else none := by
  induction lines with
  | nil =>
    intro pos cur t _
    simp only [posAux, List.length_nil]
    split
    · omega
    · rfl
  | cons l ls ih =>
    intro pos cur t h
    have hl := h l (by simp)
    simp only [posAux, hl.1, Bool.false_eq_true, if_false, hl.2, List.length_cons]
    by_cases hc : cur + 1 = t
    · simp only [hc, if_true]
      rw [if_pos (by omega)]
      congr 1
      omega
    · rw [if_neg hc, ih (pos + 1) (cur + 1) t (fun l hml => h l (by simp [hml]))]
      by_cases hin : cur + 1 < t ∧ t ≤ cur + 1 + ls.length
      · rw [if_pos hin, if_pos (by omega)]
        congr 1
        omega
      · rw [if_neg hin, if_neg (by omega)]

/-- C2 (amended): `calculatePosition` returns a position only for the
first non-header line at which the running new-file counter equals the
target, and `undefined` when the scan ends without one — but the counter
also advances on lines outside any hunk, so a patch with zero hunk
headers is not always unresolvable: when no line starts with `@@` or
`-`, target `t` resolves to position `t` exactly when `1 ≤ t ≤` number
of lines, and is `undefined` otherwise. -/
theorem c2_no_hunks_amended (patch : String) (t : Int)
    (h : ∀ l ∈ splitNl patch.data, isHdrLine l = false ∧ headIsDash l = false) :
    calculatePosition patch t =
      if 1 ≤ t ∧ t ≤ (splitNl patch.data).length then some t.toNat else none := by
  unfold calculatePosition
  rw [posAux_plain _ 0 0 t h]
  by_cases hin : 1 ≤ t ∧ t ≤ (splitNl patch.data).length
  · rw [if_pos (by omega), if_pos hin]
    congr 1
    omega
  · rw [if_neg (by omega), if_neg hin]

theorem c2_amended_witness :
    (∀ l ∈ splitNl "ab\ncd\nef".data, isHdrLine l = false ∧ headIsDash l = false) ∧
    calculatePosition "ab\ncd\nef" 2 = some 2 := by
  refine ⟨by decide, ?_⟩
  rw [c2_no_hunks_amended "ab\ncd\nef" 2 (by decide)]
  decide

/-- C3 counterexample: `"@@ bad"` starts with `@@` but does not match the
hunk-header form, yet the scan of `"@@ bad\n+x"` is not aborted: target 1
resolves to position 2, derived from the added line after the malformed
header, instead of the claimed `undefined`. -/
theorem c3_malformed_header_counterexample :
    isHdrLine "@@ bad".data = true ∧ findHunk "@@ bad".data = none ∧
    calculatePosition "@@ bad\n+x" 1 = some 2 := by
  refine ⟨by decide, by decide, by decide⟩

/-- C3 (amended): a line starting with `@@` that does not match the
hunk-header form is skipped without resetting the new-file counter and
without aborting — the scan simply continues with the remaining lines
(and, being total, never throws). -/
theorem c3_malformed_header_skipped (bad : List Char) (ls : List (List Char))
    (pos : Nat) (cur t : Int)
    (h1 : isHdrLine bad = true) (h2 : findHunk bad = none) :
    posAux (bad :: ls) pos cur t = posAux ls (pos + 1) cur t := by
  simp [posAux, h1, h2]

theorem c3_amended_witness :
    isHdrLine "@@ bad".data = true ∧ findHunk "@@ bad".data = none ∧
    posAux ["@@ bad".data, "+x".data] 0 0 1 = posAux ["+x".data] 1 0 1 :=
  ⟨by decide, by decide,
    c3_malformed_header_skipped "@@ bad".data ["+x".data] 0 0 1 (by decide) (by decide)⟩

/-- JavaScript whitespace: the class `\s` and the set removed by
`String.prototype.trim`. -/
def isSpaceJS (c : Char) : Bool :=
  c = ' ' || c = '\t' || c = '\n' || c = '\r' ||
  c.toNat = 11 || c.toNat = 12 || c.toNat = 160 || c.toNat = 0x1680 ||
  (0x2000 ≤ c.toNat && c.toNat ≤ 0x200a) ||
  c.toNat = 0x2028 || c.toNat = 0x2029 || c.toNat = 0x202f ||
  c.toNat = 0x205f || c.toNat = 0x3000 || c.toNat = 0xfeff

/-- JavaScript `.` without the `s` flag: any character except a line
terminator. -/
def isDotC (c : Char) : Bool :=
  !(c = '\n' || c = '\r' || c.toNat = 0x2028 || c.toNat = 0x2029)

/-- Model of `s.trim()`. -/
def trimJS (s : List Char) : List Char :=
  ((s.dropWhile isSpaceJS).reverse.dropWhile isSpaceJS).reverse

/-- Suffix of `hay` after the first occurrence of the literal `pat`,
`none` when `pat` does not occur. -/
def dropAfterLit (pat : List Char) : List Char → Option (List Char)
  | [] => if pat.isEmpty then some [] else none
  | c :: t =>
    if pat.isPrefixOf (c :: t) then some ((c :: t).drop pat.length)
    else dropAfterLit pat t

/-- Test that `hay` contains the literal `pat` as a substring. -/
def containsSub (hay pat : String) : Bool :=
  (dropAfterLit pat.data hay.data).isSome

/-- The lazy capture `([\s\S]*?)` bounded by the lookahead `(?=###|##|$)`
or `(?=##|$)` (the `###` alternative is subsumed by `##`): everything up
to the first occurrence of `pat`, or the whole remainder. -/
def takeUntilLit (pat : List Char) : List Char → List Char
  | [] => []
  | c :: t => if pat.isPrefixOf (c :: t) then [] else c :: takeUntilLit pat t

/-- The section-marker literal `##` of the reply headings. -/
def sectionBound : List Char := ['#', '#']

/-- Backtracking for a greedy `\s+`: `k` is the length of the maximal
whitespace run at `s`; consume `k, k-1, …, 1` whitespace characters, in
that order, and hand the remainder to the continuation. -/
def tryWsThen {α : Type} (s : List Char) (cont : List Char → Option α) : Nat → Option α
  | 0 => none
  | k + 1 =>
    match cont (s.drop (k + 1)) with
    | some r => some r
    | none => tryWsThen s cont k

/-- Length of the maximal whitespace run at the head of `s`. -/
def wsRun (s : List Char) : Nat := (s.takeWhile isSpaceJS).length

/-- The tail `([^:]+):(\d+)` of the item regex. `[^:]+` is greedy and is
followed by the literal `:` it cannot contain, and the final `\d+` is
greedy with nothing after it, so maximal munch is exact for both. -/
def fileAndLine (s : List Char) : Option (List Char × List Char × List Char) :=
  let f := s.takeWhile fun c => !(c = ':')
  if f.isEmpty then none
  else
    match s.drop f.length with
    | ':' :: t =>
      let d := t.takeWhile isDigitC
      if d.isEmpty then none else some (f, d, t.drop d.length)
    | _ => none

/-- The part `\s+-\s+在\s+([^:]+):(\d+)` of the item regex that follows
the lazy description, with each greedy `\s+` backtracking longest-first. -/
def afterDesc (s : List Char) : Option (List Char × List Char × List Char) :=
  tryWsThen s
    (fun s1 =>
      match s1 with
      | '-' :: s2 =>
        tryWsThen s2
          (fun s3 =>
            match s3 with
            | '在' :: s4 => tryWsThen s4 fileAndLine (wsRun s4)
            | _ => none)
          (wsRun s2)
      | _ => none)
    (wsRun s)

/-- The lazy `(.+?)`: grow the description one non-terminator character
at a time, shortest first, attempting the continuation after each step. -/
def lazyDesc : List Char → List Char → Option (List Char × List Char × List Char × List Char)
  | _, [] => none
  | acc, c :: t =>
    if isDotC c then
      match afterDesc t with
      | some (f, d, rest) => some (acc ++ [c], f, d, rest)
      | none => lazyDesc (acc ++ [c]) t
    else none

/-- One attempt of the item regex `\d+\.\s+(.+?)\s+-\s+在\s+([^:]+):(\d+)`
anchored at `s`, returning the three captures and the remainder after the
match. The leading `\d+` is followed by `\.` which is not a digit, so
maximal munch is exact there. -/
def matchItemAt (s : List Char) : Option (List Char × List Char × List Char × List Char) :=
  let ds := s.takeWhile isDigitC
  if ds.isEmpty then none
  else
    match s.drop ds.length with
    | '.' :: s1 => tryWsThen s1 (lazyDesc []) (wsRun s1)
    | _ => none

theorem takeWhileLenLe (p : Char → Bool) (l : List Char) :
    (l.takeWhile p).length ≤ l.length := by
  induction l with
  | nil => simp
  | cons c t ih =>
    by_cases h : p c = true <;> simp [List.takeWhile_cons, h] <;> omega

theorem tryWsThen_some {α : Type} {P : α → Prop} (s : List Char) (cont : List Char → Option α) :
    ∀ (k : Nat), (∀ j r, cont (s.drop j) = some r → P r) →
      ∀ r, tryWsThen s cont k = some r → P r := by
  intro k
  induction k with
  | zero => intro _ r h; simp [tryWsThen] at h
  | succ k ih =>
    intro hcont r h
    unfold tryWsThen at h
    cases hc : cont (s.drop (k + 1)) with
    | some v => rw [hc] at h; cases h; exact hcont (k + 1) _ hc
    | none => rw [hc] at h; exact ih hcont r h

theorem fileAndLine_lt (s f d rest : List Char) (h : fileAndLine s = some (f, d, rest)) :
    rest.length < s.length := by
  unfold fileAndLine at h
  by_cases hf : (s.takeWhile fun c => !(c = ':')).isEmpty
  · simp [hf] at h
  · rw [if_neg hf] at h
    split at h
    · next t heq =>
      by_cases hd : (t.takeWhile isDigitC).isEmpty
      · simp [hd] at h
      · rw [if_neg hd] at h
        cases h
        have h1 : (s.drop (s.takeWhile fun c => !(c = ':')).length).length =
            s.length - (s.takeWhile fun c => !(c = ':')).length := List.length_drop ..
        have h2 : (s.takeWhile fun c => !(c = ':')).length ≤ s.length :=
          takeWhileLenLe ..
        rw [heq] at h1
        have h3 : (t.drop (t.takeWhile isDigitC).length).length ≤ t.length :=
          List.length_drop .. ▸ Nat.sub_le ..
        simp only [List.length_cons] at h1
        omega
    · exact absurd h (by simp)

theorem afterDesc_lt (s f d rest : List Char) (h : afterDesc s = some (f, d, rest)) :
    rest.length < s.length := by
  unfold afterDesc at h
  refine tryWsThen_some (P := fun r : List Char × List Char × List Char =>
    r.2.2.length < s.length) s _ (wsRun s) ?_ _ h
  intro j r hr
  simp only at hr
  split at hr
  · next s2 heq2 =>
    have hj : s2.length < s.length := by
      have := List.length_drop j s
      rw [heq2] at this
      simp only [List.length_cons] at this
      omega
    refine tryWsThen_some (P := fun r : List Char × List Char × List Char =>
      r.2.2.length < s.length) s2 _ (wsRun s2) ?_ _ hr
    intro j2 r2 hr2
    simp only at hr2
    split at hr2
    · next s4 heq4 =>
      have hj2 : s4.length < s2.length := by
        have := List.length_drop j2 s2
        rw [heq4] at this
        simp only [List.length_cons] at this
        omega
      refine tryWsThen_some (P := fun r : List Char × List Char × List Char =>
        r.2.2.length < s.length) s4 _ (wsRun s4) ?_ _ hr2
      intro j3 r3 hr3
      obtain ⟨f3, d3, rest3⟩ := r3
      show rest3.length < s.length
      have := fileAndLine_lt _ _ _ _ hr3
      have hd : (s4.drop j3).length ≤ s4.length := List.length_drop .. ▸ Nat.sub_le ..
      omega
    · exact absurd hr2 (by simp)
  · exact absurd hr (by simp)

theorem lazyDesc_lt (s : List Char) :
    ∀ (acc de f d rest : List Char), lazyDesc acc s = some (de, f, d, rest) →
      rest.length < s.length := by
  induction s with
  | nil => intro acc de f d rest h; simp [lazyDesc] at h
  | cons c t ih =>
    intro acc de f d rest h
    unfold lazyDesc at h
    by_cases hc : isDotC c = true
    · rw [if_pos hc] at h
      cases ha : afterDesc t with
      | some v =>
        rw [ha] at h
        obtain ⟨f', d', rest'⟩ := v
        cases h
        have := afterDesc_lt _ _ _ _ ha
        simp only [List.length_cons]
        omega
      | none =>
        rw [ha] at h
        have := ih _ _ _ _ _ h
        simp only [List.length_cons]
        omega
    · rw [if_neg hc] at h
      exact absurd h (by simp)

theorem matchItemAt_lt (s de f d rest : List Char)
    (h : matchItemAt s = some (de, f, d, rest)) : rest.length < s.length := by
  unfold matchItemAt at h
  by_cases hd : (s.takeWhile isDigitC).isEmpty
  · simp [hd] at h
  · rw [if_neg hd] at h
    split at h
    · next s1 heq =>
      have hs1 : s1.length < s.length := by
        have h1 := List.length_drop (s.takeWhile isDigitC).length s
        rw [heq] at h1
        have h2 : (s.takeWhile isDigitC).length ≤ s.length := takeWhileLenLe ..
        simp only [List.length_cons] at h1
        omega
      refine tryWsThen_some
        (P := fun r : List Char × List Char × List Char × List Char =>
          r.2.2.2.length < s.length) s1 _ (wsRun s1) ?_ _ h
      intro j r hr
      obtain ⟨de', f', d', rest'⟩ := r
      show rest'.length < s.length
      have := lazyDesc_lt _ _ _ _ _ _ hr
      have hdr : (s1.drop j).length ≤ s1.length := List.length_drop .. ▸ Nat.sub_le ..
      omega
    · exact absurd h (by simp)

/-- The `while ((match = issueRegex.exec(section)) !== null)` loop with a
`g`-flagged regex: find the leftmost match, record its captures, and
continue after its end; on no match at the current start, slide one
character. The fuel `s.length + 1` is sufficient because every step
strictly shrinks the input (`matchItemAt_lt`); `execItemsF_fuel` below
makes the definition independent of the exact fuel. -/
def execItemsF : Nat → List Char → List (List Char × List Char × List Char)
  | 0, _ => []
  | fuel + 1, s =>
    match matchItemAt s with
    | some (de, f, d, rest) => (de, f, d) :: execItemsF fuel rest
    | none =>
      match s with
      | [] => []
      | _ :: t => execItemsF fuel t

/-- All matches of the item regex over `s`, leftmost and non-overlapping. -/
def execItems (s : List Char) : List (List Char × List Char × List Char) :=
  execItemsF (s.length + 1) s

theorem execItemsF_succ (fuel : Nat) (s : List Char) :
    execItemsF (fuel + 1) s =
      match matchItemAt s with
      | some (de, f, d, rest) => (de, f, d) :: execItemsF fuel rest
      | none =>
        match s with
        | [] => []
        | _ :: t => execItemsF fuel t := rfl

theorem execItemsF_canon :
    ∀ (f1 : Nat) (s : List Char), s.length < f1 →
      execItemsF f1 s = execItemsF (s.length + 1) s := by
  intro f1
  induction f1 using Nat.strong_induction_on with
  | _ f1 ih =>
    intro s hs
    cases f1 with
    | zero => omega
    | succ a =>
      rw [execItemsF_succ a s, execItemsF_succ s.length s]
      cases hm : matchItemAt s with
      | some v =>
        obtain ⟨de, f, d, rest⟩ := v
        have hlt := matchItemAt_lt _ _ _ _ _ hm
        have e1 : execItemsF a rest = execItemsF (rest.length + 1) rest :=
          ih a (by omega) rest (by omega)
        have e2 : execItemsF s.length rest = execItemsF (rest.length + 1) rest :=
          ih s.length (by omega) rest (by omega)
        show (de, f, d) :: execItemsF a rest = (de, f, d) :: execItemsF s.length rest
        rw [e1, e2]
      | none =>
        cases s with
        | nil => rfl
        | cons c t =>
          simp only [List.length_cons] at hs ⊢
          exact ih a (by omega) t (by omega)

theorem execItemsF_fuel (f1 f2 : Nat) (s : List Char) (h1 : s.length < f1)
    (h2 : s.length < f2) : execItemsF f1 s = execItemsF f2 s := by
  rw [execItemsF_canon f1 s h1, execItemsF_canon f2 s h2]

/-- Model of `parseIssuesFromSection(section, severity)` (aiAnalyzer.ts 167-188):
one `ReviewIssue` per regex match, in scan order. `lineStr` matches `\d+`,
so `parseInt` cannot yield `NaN` and the `isNaN` fallback to 0 is
unreachable; the line is the parsed digits. The issue type is always the
hard-coded `'bug'` and no suggestion is set. -/
def parseIssuesFromSection (sec : String) (sev : Severity) : List ReviewIssue :=
  (execItems sec.data).map fun it =>
    { message := String.mk it.1
      file := String.mk it.2.1
      line := some ((digitsToNat it.2.2 : Nat) : Int)
      severity := sev
      type := IssueType.bug
      suggestion := none }

/-- Model of `aiReply.match(/### <heading>\n([\s\S]*?)(?=###|##|$)/)`: locate the
first occurrence of the literal heading and capture lazily up to the next
`##` (the `###` lookahead alternative is subsumed) or the end. -/
def extractSection (reply heading : String) : Option (List Char) :=
  (dropAfterLit heading.data reply.data).map (takeUntilLit sectionBound)

/-- One `if (match && match[1]) issues.push(...parseIssuesFromSection(...))`
block of `analyze` (aiAnalyzer.ts 120-140): an empty capture is falsy and
contributes nothing. -/
def sectionIssues (reply heading : String) (sev : Severity) : List ReviewIssue :=
  match extractSection reply heading with
  | some cap => if cap.isEmpty then [] else parseIssuesFromSection (String.mk cap) sev
  | none => []

/-- Attempt of the head `##\s*问题点:?` of the problems-section regex at a
fixed start. `\s*` is greedy and followed by a non-space literal, so
maximal munch is exact; the optional `:` is consumed when present. -/
def problemsHeadAt (s : List Char) : Option (List Char) :=
  match s with
  | '#' :: '#' :: t =>
    let t1 := t.dropWhile isSpaceJS
    if ['问', '题', '点'].isPrefixOf t1 then
      match t1.drop 3 with
      | ':' :: t3 => some t3
      | t2 => some t2
    else none
  | _ => none

/-- Leftmost match of `/##\s*问题点:?([\s\S]*?)(?=##|$)/`, returning the
remainder from which the lazy capture starts (the capture plus lookahead
can always complete, so the first head match is the match). -/
def findProblems : List Char → Option (List Char)
  | [] => none
  | c :: t =>
    match problemsHeadAt (c :: t) with
    | some r => some r
    | none => findProblems t

/-- Model of `s.endsWith(suffix)`. -/
def strEndsWith (s suf : String) : Bool := suf.data.isSuffixOf s.data

/-- The predicate of `diffs.find(d => d.filename === path ||
d.filename.endsWith('/' + path))` (aiAnalyzer.ts 213). -/
def fileMatch (path : String) (d : PRDiff) : Bool :=
  d.filename == path || strEndsWith d.filename ("/" ++ path)

/-- Model of `formatCommentBody` (aiAnalyzer.ts 249-257): trim, strip a leading
run of whitespace/dashes, and force a terminal `.`/`?`/`!`. -/
def formatCommentBody (body : String) : String :=
  let b := (trimJS body.data).dropWhile fun c => isSpaceJS c || c = '-'
  match b.getLast? with
  | some c => if c = '.' || c = '?' || c = '!' then String.mk b else String.mk (b ++ ['.'])
  | none => String.mk (b ++ ['.'])

/-- The position assigned by the `while` loop of `extractLineComments`
(aiAnalyzer.ts 211-235): look the cited path up among the diff entries by
exact or `/`-suffix filename match; when the entry exists and its patch
is truthy (present and non-empty), use `calculatePosition`, otherwise the
comment is pushed with `position: undefined`. -/
def positionForItem (diffs : List PRDiff) (path : String) (lineNumber : Nat) : Option Nat :=
  match diffs.find? (fileMatch path) with
  | some d =>
    match d.patch with
    | some p => if p = "" then none else calculatePosition p (lineNumber : Int)
    | none => none
  | none => none

/-- The comment pushed by the `while` loop of `extractLineComments` for
one matched item (aiAnalyzer.ts 207-236). The guard
`!isNaN(lineNumber) && path` is always true (both captures are nonempty
by the regex), and both push branches build `{path, body, position}` with
the same path (the cited string, not the entry's filename) and the same
formatted body, differing only in the position. -/
def itemToComment (diffs : List PRDiff) (it : List Char × List Char × List Char) :
    ReviewComment :=
  { path := String.mk it.2.1
    position := positionForItem diffs (String.mk it.2.1) (digitsToNat it.2.2)
    body := formatCommentBody (String.mk it.1) }

/-- Model of `extractLineComments(aiReply, diffs)` (aiAnalyzer.ts 196-242). -/
def extractLineComments (aiReply : String) (diffs : List PRDiff) : List ReviewComment :=
  match findProblems aiReply.data with
  | none => []
  | some rest =>
    let cap := takeUntilLit sectionBound rest
    if cap.isEmpty then []
    else (execItems (trimJS cap)).map (itemToComment diffs)

/-- The reply-parsing block of `AICodeAnalyzer.analyze` (aiAnalyzer.ts
117-157): severity sections high, medium, low in order, then the inline
comments, with the raw reply always kept as summary. Every step is a
total function, so the surrounding `try/catch` never fires. -/
def parseReply (aiReply : String) (diffs : List PRDiff) : ReviewResult :=
  let issues :=
    sectionIssues aiReply "### 高严重性问题\n" Severity.high ++
    sectionIssues aiReply "### 中等严重性问题\n" Severity.medium ++
    sectionIssues aiReply "### 低严重性问题\n" Severity.low
  let comments := extractLineComments aiReply diffs
  { comments := comments, issues := issues, summary := aiReply }

theorem dropAfterLit_mono (pat' pat : List Char) (hp : pat'.isPrefixOf pat = true) :
    ∀ s, dropAfterLit pat' s = none → dropAfterLit pat s = none := by
  intro s
  induction s with
  | nil =>
    intro h
    unfold dropAfterLit at h ⊢
    by_cases he' : pat'.isEmpty
    · rw [if_pos he'] at h; exact absurd h (by simp)
    · split
      · next he =>
        have : pat' <+: pat := List.isPrefixOf_iff_prefix.mp hp
        have : pat' = [] := List.prefix_nil.mp (by
          rwa [List.isEmpty_iff.mp he] at this)
        exact absurd (by simp [this]) he'
      · rfl
  | cons c t ih =>
    intro h
    unfold dropAfterLit at h ⊢
    by_cases hpre' : pat'.isPrefixOf (c :: t) = true
    · rw [if_pos hpre'] at h; exact absurd h (by simp)
    · rw [if_neg hpre'] at h
      by_cases hpre : pat.isPrefixOf (c :: t) = true
      · exact absurd ( List.isPrefixOf_iff_prefix.mpr
          (( List.isPrefixOf_iff_prefix.mp hp).trans
            ( List.isPrefixOf_iff_prefix.mp hpre))) hpre'
      · rw [if_neg hpre]
        exact ih h

theorem containsSubFalse (hay pat : String) (h : containsSub hay pat = false) :
    dropAfterLit pat.data hay.data = none := by
  unfold containsSub at h
  cases hd : dropAfterLit pat.data hay.data with
  | none => rfl
  | some v => rw [hd] at h; simp at h

theorem findProblems_none (s : List Char) :
    dropAfterLit sectionBound s = none → findProblems s = none := by
  induction s with
  | nil => intro _; rfl
  | cons c t ih =>
    intro h
    unfold dropAfterLit at h
    by_cases hpre : sectionBound.isPrefixOf (c :: t) = true
    · rw [if_pos hpre] at h; exact absurd h (by simp)
    · rw [if_neg hpre] at h
      unfold findProblems
      have hph : problemsHeadAt (c :: t) = none := by
        unfold problemsHeadAt
        split
        · rename_i s' t' heq
          rw [heq] at hpre
          exact absurd (by simp [sectionBound, List.isPrefixOf_iff_prefix,
            List.cons_prefix_cons]) hpre
        · rfl
      rw [hph]
      exact ih h

/-- C4: reply parsing is a total function — it cannot throw — the raw
reply is always preserved verbatim as the summary, and a reply containing
no `##` section marker anywhere (hence no recognizable headings) yields
no findings and no comments. -/
theorem c4_summary_preserved_and_degrade (aiReply : String) (diffs : List PRDiff) :
    (parseReply aiReply diffs).summary = aiReply ∧
    (containsSub aiReply "##" = false →
      (parseReply aiReply diffs).issues = [] ∧ (parseReply aiReply diffs).comments = []) := by
  refine ⟨rfl, fun h => ?_⟩
  have hnone : dropAfterLit sectionBound aiReply.data = none := containsSubFalse _ _ h
  have hsec : ∀ (heading : String) (sev : Severity),
      sectionBound.isPrefixOf heading.data = true →
      sectionIssues aiReply heading sev = [] := by
    intro heading sev hpre
    unfold sectionIssues extractSection
    rw [dropAfterLit_mono sectionBound heading.data hpre aiReply.data hnone]
    rfl
  constructor
  · show sectionIssues _ _ _ ++ sectionIssues _ _ _ ++ sectionIssues _ _ _ = []
    rw [hsec _ _ (by decide), hsec _ _ (by decide), hsec _ _ (by decide)]
    rfl
  · show extractLineComments aiReply diffs = []
    unfold extractLineComments
    rw [findProblems_none _ hnone]

theorem c4_witness :
    containsSub "hello world" "##" = false ∧
    ((parseReply "hello world" []).issues = [] ∧
      (parseReply "hello world" []).comments = []) :=
  ⟨by decide, (c4_summary_preserved_and_degrade "hello world" []).2 (by decide)⟩

theorem sectionIssues_severity (reply heading : String) (sev : Severity) :
    ∀ i ∈ sectionIssues reply heading sev, i.severity = sev := by
  intro i hi
  unfold sectionIssues at hi
  cases he : extractSection reply heading with
  | none => rw [he] at hi; simp at hi
  | some cap =>
    rw [he] at hi
    have hi' : i ∈ (if cap.isEmpty = true then ([] : List ReviewIssue)
        else parseIssuesFromSection (String.mk cap) sev) := hi
    by_cases hc : cap.isEmpty = true
    · rw [if_pos hc] at hi'; simp at hi'
    · rw [if_neg hc] at hi'
      unfold parseIssuesFromSection at hi'
      rw [List.mem_map] at hi'
      obtain ⟨it, _, rfl⟩ := hi'
      rfl

/-- C6: when the medium and low severity headings are absent from the
reply, the parsed findings are exactly those of the high-severity
subsection (one per matched numbered item, in order), every parsed
finding has severity high, and the full raw reply is the summary. -/
theorem c6_high_only_sections (aiReply : String) (diffs : List PRDiff)
    (hm : containsSub aiReply "### 中等严重性问题\n" = false)
    (hl : containsSub aiReply "### 低严重性问题\n" = false) :
    (parseReply aiReply diffs).issues =
      sectionIssues aiReply "### 高严重性问题\n" Severity.high ∧
    (∀ i ∈ (parseReply aiReply diffs).issues, i.severity = Severity.high) ∧
    (parseReply aiReply diffs).summary = aiReply := by
  have hmed : sectionIssues aiReply "### 中等严重性问题\n" Severity.medium = [] := by
    unfold sectionIssues extractSection
    rw [containsSubFalse _ _ hm]
    rfl
  have hlow : sectionIssues aiReply "### 低严重性问题\n" Severity.low = [] := by
    unfold sectionIssues extractSection
    rw [containsSubFalse _ _ hl]
    rfl
  have hiss : (parseReply aiReply diffs).issues =
      sectionIssues aiReply "### 高严重性问题\n" Severity.high := by
    show sectionIssues _ _ _ ++ sectionIssues _ _ _ ++ sectionIssues _ _ _ = _
    rw [hmed, hlow]
    simp
  exact ⟨hiss, fun i hi => sectionIssues_severity _ _ _ i (hiss ▸ hi), rfl⟩

theorem c6_witness :
    containsSub "### 高严重性问题\n1. bad - 在 a.ts:3\n" "### 中等严重性问题\n" = false ∧
    containsSub "### 高严重性问题\n1. bad - 在 a.ts:3\n" "### 低严重性问题\n" = false ∧
    ((parseReply "### 高严重性问题\n1. bad - 在 a.ts:3\n" []).issues =
        sectionIssues "### 高严重性问题\n1. bad - 在 a.ts:3\n" "### 高严重性问题\n"
          Severity.high ∧
      (∀ i ∈ (parseReply "### 高严重性问题\n1. bad - 在 a.ts:3\n" []).issues,
        i.severity = Severity.high) ∧
      (parseReply "### 高严重性问题\n1. bad - 在 a.ts:3\n" []).summary =
        "### 高严重性问题\n1. bad - 在 a.ts:3\n") :=
  ⟨by decide, by decide,
    c6_high_only_sections "### 高严重性问题\n1. bad - 在 a.ts:3\n" [] (by decide) (by decide)⟩

/-- C10: every finding produced by the reply parser has the hard-coded
kind `bug` — none of the other four kinds is ever assigned — and a
present, non-negative line number (the regex guarantees digits, so the
`isNaN`-to-0 fallback never fires and the parsed value is `≥ 0`). -/
theorem c10_issue_kind_and_line (sec : String) (sev : Severity) :
    ∀ i ∈ parseIssuesFromSection sec sev,
      i.type = IssueType.bug ∧ ∃ n : Int, i.line = some n ∧ 0 ≤ n := by
  intro i hi
  unfold parseIssuesFromSection at hi
  rw [List.mem_map] at hi
  obtain ⟨it, _, rfl⟩ := hi
  exact ⟨rfl, ⟨(digitsToNat it.2.2 : Nat), rfl, Int.natCast_nonneg _⟩⟩

theorem c10_witness :
    (⟨IssueType.bug, Severity.low, "msg", none, some 3, "f"⟩ : ReviewIssue) ∈
      parseIssuesFromSection "1. msg - 在 f:3" Severity.low ∧
    ((⟨IssueType.bug, Severity.low, "msg", none, some 3, "f"⟩ : ReviewIssue).type =
        IssueType.bug ∧
      ∃ n : Int,
        (⟨IssueType.bug, Severity.low, "msg", none, some 3, "f"⟩ : ReviewIssue).line =
          some n ∧ 0 ≤ n) :=
  ⟨by decide, c10_issue_kind_and_line "1. msg - 在 f:3" Severity.low _ (by decide)⟩

/-- C5 counterexample: for the single diff entry whose patch is present
but empty, the resolver resolves target 1 successfully on that patch
(`calculatePosition "" 1 = some 1`), yet the produced comment carries no
position, because the code guards with the truthiness of `diff.patch`
and the empty string is falsy — so "position is set iff the resolver
resolves against that entry's patch" fails as stated. -/
theorem c5_empty_patch_counterexample :
    calculatePosition "" 1 = some 1 ∧
    extractLineComments "## 问题点\n1. b - 在 x.ts:1\n"
        [{ filename := "x.ts", patch := some "", additions := 0, deletions := 0,
           changes := 0, status := "modified" }] =
      [{ path := "x.ts", position := none, body := "b." }] := by
  constructor
  · decide
  · decide

/-- C5 (amended): every comment extracted from the problems section is
the per-item comment of some matched item; for each item the comment's
path is the cited file string (never the matched entry's full filename),
an item whose cited file matches no diff entry still yields a comment
with no position, an item whose first matching entry has an absent or
empty patch yields a comment with no position, and when the first
matching entry has a present non-empty patch the position is exactly
`calculatePosition` of that patch at the cited line. -/
theorem c5_comment_placement (aiReply : String) (diffs : List PRDiff) :
    (∃ items : List (List Char × List Char × List Char),
      extractLineComments aiReply diffs = items.map (itemToComment diffs)) ∧
    (∀ it : List Char × List Char × List Char,
      (itemToComment diffs it).path = String.mk it.2.1 ∧
      (diffs.find? (fileMatch (String.mk it.2.1)) = none →
        (itemToComment diffs it).position = none) ∧
      (∀ d, diffs.find? (fileMatch (String.mk it.2.1)) = some d →
        (d.patch = none ∨ d.patch = some "") →
        (itemToComment diffs it).position = none) ∧
      (∀ d p, diffs.find? (fileMatch (String.mk it.2.1)) = some d → d.patch = some p →
        p ≠ "" →
        (itemToComment diffs it).position =
          calculatePosition p ((digitsToNat it.2.2 : Nat) : Int))) := by
  constructor
  · unfold extractLineComments
    cases findProblems aiReply.data with
    | none => exact ⟨[], rfl⟩
    | some rest =>
      by_cases hc : (takeUntilLit sectionBound rest).isEmpty = true
      · refine ⟨[], ?_⟩
        show (if (takeUntilLit sectionBound rest).isEmpty = true then []
          else (execItems (trimJS (takeUntilLit sectionBound rest))).map
            (itemToComment diffs)) = _
        rw [if_pos hc]
        rfl
      · refine ⟨execItems (trimJS (takeUntilLit sectionBound rest)), ?_⟩
        show (if (takeUntilLit sectionBound rest).isEmpty = true then []
          else (execItems (trimJS (takeUntilLit sectionBound rest))).map
            (itemToComment diffs)) = _
        rw [if_neg hc]
  · intro it
    refine ⟨rfl, ?_, ?_, ?_⟩
    · intro hnone
      show positionForItem diffs (String.mk it.2.1) (digitsToNat it.2.2) = none
      unfold positionForItem
      rw [hnone]
    · intro d hd hpatch
      show positionForItem diffs (String.mk it.2.1) (digitsToNat it.2.2) = none
      unfold positionForItem
      rw [hd]
      show (match d.patch with
        | some p => if p = "" then none
            else calculatePosition p ((digitsToNat it.2.2 : Nat) : Int)
        | none => none) = none
      cases hpatch with
      | inl h => rw [h]
      | inr h =>
        rw [h]
        show (if ("" : String) = "" then none
          else calculatePosition "" ((digitsToNat it.2.2 : Nat) : Int)) = none
        rw [if_pos rfl]
    · intro d p hd hp hne
      show positionForItem diffs (String.mk it.2.1) (digitsToNat it.2.2) =
        calculatePosition p ((digitsToNat it.2.2 : Nat) : Int)
      unfold positionForItem
      rw [hd]
      show (match d.patch with
        | some p => if p = "" then none
            else calculatePosition p ((digitsToNat it.2.2 : Nat) : Int)
        | none => none) = _
      rw [hp]
      show (if p = "" then none
        else calculatePosition p ((digitsToNat it.2.2 : Nat) : Int)) = _
      rw [if_neg hne]

/-- A concrete diff entry whose filename matches `src/x.ts` by suffix. -/
def sampleEntry : PRDiff :=
  { filename := "repo/src/x.ts", patch := some "@@ -1,3 +1,4 @@\n a\n+b\n+c\n d",
    additions := 2, deletions := 0, changes := 2, status := "modified" }

theorem c5_amended_witness :
    ([sampleEntry].find? (fileMatch (String.mk "src/x.ts".data)) = some sampleEntry) ∧
    (itemToComment [sampleEntry] ("b".data, "src/x.ts".data, "3".data)).path =
      String.mk "src/x.ts".data ∧
    (itemToComment [sampleEntry] ("b".data, "src/x.ts".data, "3".data)).position =
      calculatePosition "@@ -1,3 +1,4 @@\n a\n+b\n+c\n d"
        ((digitsToNat "3".data : Nat) : Int) :=
  ⟨by decide,
    ((c5_comment_placement "" [sampleEntry]).2 ("b".data, "src/x.ts".data, "3".data)).1,
    ((c5_comment_placement "" [sampleEntry]).2
      ("b".data, "src/x.ts".data, "3".data)).2.2.2 sampleEntry
      "@@ -1,3 +1,4 @@\n a\n+b\n+c\n d" (by decide) rfl (by decide)⟩

/-- The fixed system prompt of `preparePromptFromDiffs` (aiAnalyzer.ts
307-310). -/
def promptSystem : String :=
  "你是一位专业的高级代码审查专家，拥有多年软件开发和代码审查经验。\n你的任务是对提交的代码变更进行全面、专业、有建设性的代码审查。\n你必须严格按照指定的Markdown格式返回结果，包含表情符号，并确保内容具体、可操作。\n分析代码优点与问题点，并给出具体修改建议。"

/-- The mandated output-format template appended to the user prompt
(aiAnalyzer.ts 344-376). -/
def promptFormatSpec : String :=
  "\n### 请求的审查格式\n\n你必须严格按照以下格式提供代码审查结果，包含所有指定的表情符号：\n\n## 😀代码评分: [0-100分]\n\n## ✅代码优点:\n1. [优点1描述，具体说明代码的哪些方面做得好]\n2. [优点2描述]\n3. [优点3描述]\n（列出至少3-5个优点，如果确实很少则至少2个）\n\n## 🤔问题点:\n1. [问题1描述] - 在 [文件名]:[行号]\n2. [问题2描述] - 在 [文件名]:[行号]\n3. [问题3描述] - 在 [文件名]:[行号]\n（按重要性排序，每个问题必须指明具体文件和行号）\n\n## 🎯修改建议:\n1. [建议1，针对具体问题，包含代码示例]\n2. [建议2，针对具体问题，包含代码示例]\n3. [建议3，针对具体问题，包含代码示例]\n（针对上述问题提供具体的修改建议，尽可能包含代码示例）\n\n## 💻修改后的代码:\n如果有重要修改建议，提供修改后的代码示例:\n\n```[语言]\n[改进后的完整代码片段，而不仅仅是修改部分]\n```\n\n必须严格遵循此格式，不要省略任何部分或添加额外部分。确保使用正确的表情符号和Markdown格式。\n"

/-- The literal placeholder used when a diff entry has no usable patch. -/
def noDiffPlaceholder : String := "[没有可用的差异内容]\n\n"

/-- The fenced block embedding one patch verbatim. -/
def patchBlock (p : String) : String := "```diff\n" ++ p ++ "\n```\n\n"

/-- One line of the change overview (aiAnalyzer.ts 322-324). -/
def overviewLine (i : Nat) (d : PRDiff) : String :=
  "- 文件 " ++ toString (i + 1) ++ ": `" ++ d.filename ++ "` (" ++ d.status ++ ", +" ++
    toString d.additions ++ "/-" ++ toString d.deletions ++ "行)\n"

/-- One per-file detail section (aiAnalyzer.ts 329-341). `if (diff.patch)`
is a truthiness test: an absent or empty patch yields the placeholder. -/
def detailBlock (n i : Nat) (d : PRDiff) : String :=
  "\n#### 文件 " ++ toString (i + 1) ++ "/" ++ toString n ++ ": `" ++ d.filename ++ "`\n" ++
  "- 状态: " ++ d.status ++ "\n" ++
  "- 添加: " ++ toString d.additions ++ " 行\n" ++
  "- 删除: " ++ toString d.deletions ++ " 行\n" ++
  "- 变更总计: " ++ toString d.changes ++ " 行\n\n" ++
  (match d.patch with
   | some p => if p = "" then noDiffPlaceholder else patchBlock p
   | none => noDiffPlaceholder)

/-- Model of `preparePromptFromDiffs(diffs)` (aiAnalyzer.ts 305-379): the string
is accumulated exactly as the two `forEach` loops do. -/
def preparePromptFromDiffs (diffs : List PRDiff) : String :=
  let userPrompt :=
    "## 代码审查请求\n    \n我需要你对以下Pull Request的代码变更进行专业的代码审查。\n\n### 变更概述\n共有 " ++
      toString diffs.length ++ " 个文件被修改：\n"
  let userPrompt := diffs.enum.foldl (fun acc x => acc ++ overviewLine x.1 x.2) userPrompt
  let userPrompt := userPrompt ++ "\n### 详细变更内容\n"
  let userPrompt :=
    diffs.enum.foldl (fun acc x => acc ++ detailBlock diffs.length x.1 x.2) userPrompt
  let userPrompt := userPrompt ++ promptFormatSpec
  promptSystem ++ "\n\n" ++ userPrompt

/-- Concatenation of a list of strings, in order. -/
def joinStr : List String → String
  | [] => ""
  | s :: rest => s ++ joinStr rest

theorem foldl_append_joinStr {α : Type} (f : α → String) (l : List α) :
    ∀ init : String, l.foldl (fun acc x => acc ++ f x) init = init ++ joinStr (l.map f) := by
  induction l with
  | nil => intro init; simp [joinStr, String.append_empty]
  | cons a t ih =>
    intro init
    simp only [List.foldl_cons, List.map_cons, joinStr]
    rw [ih (init ++ f a), String.append_assoc]

/-- Everything the prompt contains before the per-file detail sections:
system prompt, separator, request header with the file count, and the
overview lines in input order. -/
def promptHead (diffs : List PRDiff) : String :=
  promptSystem ++ "\n\n" ++
  ("## 代码审查请求\n    \n我需要你对以下Pull Request的代码变更进行专业的代码审查。\n\n### 变更概述\n共有 " ++
    toString diffs.length ++ " 个文件被修改：\n") ++
  joinStr (diffs.enum.map fun x => overviewLine x.1 x.2) ++
  "\n### 详细变更内容\n"

/-- C9 (amended): the prompt decomposes into a head, one detail segment
per entry in input order, and the fixed format template; each segment
carries exactly one fenced block embedding the entry's patch verbatim
when the patch is present and non-empty, and exactly one
"no diff available" placeholder when the patch is absent or empty. -/
theorem c9_prompt_segments (diffs : List PRDiff) :
    preparePromptFromDiffs diffs =
      promptHead diffs ++
        joinStr (diffs.enum.map fun x => detailBlock diffs.length x.1 x.2) ++
        promptFormatSpec := by
  simp only [preparePromptFromDiffs, promptHead]
  rw [foldl_append_joinStr, foldl_append_joinStr]
  simp only [String.append_assoc]

set_option maxRecDepth 100000 in
set_option maxHeartbeats 2000000 in
/-- C9 counterexample: an entry whose patch is present but empty — so not
"absent" — nevertheless produces a placeholder (and no fenced block), so
"exactly one placeholder per entry whose patch is absent" fails: here
zero entries have an absent patch yet the placeholder occurs. -/
theorem c9_empty_patch_counterexample :
    (([{ filename := "a.ts", patch := some "", additions := 0, deletions := 0,
         changes := 0, status := "modified" }] : List PRDiff).filter
        (fun d => d.patch.isNone)).length = 0 ∧
    containsSub
      (preparePromptFromDiffs
        [{ filename := "a.ts", patch := some "", additions := 0, deletions := 0,
           changes := 0, status := "modified" }])
      "[没有可用的差异内容]" = true ∧
    containsSub
      (preparePromptFromDiffs
        [{ filename := "a.ts", patch := some "", additions := 0, deletions := 0,
           changes := 0, status := "modified" }])
      "```diff" = false := by
  refine ⟨by decide, by decide, by decide⟩

/-- What the analyzer observes of one `fetch` round trip: the transport
status (`response.ok`, `response.status`, `response.statusText`) and the
decoded JSON envelope, abstracted per the interface contract to the
optional `choices[0].message.content` plus the `JSON.stringify` fallback.
The DeepSeek branch of the source extracts the reply identically, so it
needs no separate case. -/
structure AIResponse where
  ok : Bool
  status : Nat
  statusText : String
  content : Option String
  stringified : String
deriving DecidableEq, Repr

/-- Model of `AICodeAnalyzer.analyze(diffs)` (aiAnalyzer.ts 32-162), with the one
outbound call abstracted as the function argument `fetch` from the
prepared prompt to the observed response. The credential check precedes
everything; the empty-diff short-circuit precedes the call; a non-success
status throws the transport error; afterwards the reply is extracted and
parsed, which cannot throw. -/
def analyzeAI (apiKey : String) (diffs : List PRDiff)
    (fetch : String → AIResponse) : Except String ReviewResult :=
  if apiKey = "" then Except.error "未设置AI API密钥"
  else if diffs.isEmpty then
    Except.ok { comments := [], issues := [], summary := "没有发现差异需要分析" }
  else
    let resp := fetch (preparePromptFromDiffs diffs)
    if resp.ok = false then
      Except.error ("AI API响应错误: " ++ toString resp.status ++ " " ++ resp.statusText)
    else
      Except.ok (parseReply (resp.content.getD resp.stringified) diffs)

/-- The fixed issue pushed by `addJsIssue` (mockAnalyzer.ts). -/
def jsIssue (d : PRDiff) : ReviewIssue :=
  { type := IssueType.performance, severity := Severity.medium,
    message := "检测到可能的性能问题，避免在循环中使用高耗时操作",
    suggestion := none, line := none, file := d.filename }

/-- The fixed comment pushed by `addJsIssue` (mockAnalyzer.ts). -/
def jsComment (d : PRDiff) : ReviewComment :=
  { path := d.filename, position := none,
    body := "**性能建议**: 考虑将高耗时操作移出循环，或使用缓存来优化性能。" }

/-- The fixed issue pushed by `addCssIssue` (mockAnalyzer.ts). -/
def cssIssue (d : PRDiff) : ReviewIssue :=
  { type := IssueType.style, severity := Severity.low,
    message := "CSS选择器过于具体，可能导致维护困难",
    suggestion := none, line := none, file := d.filename }

/-- The fixed comment pushed by `addCssIssue` (mockAnalyzer.ts). -/
def cssComment (d : PRDiff) : ReviewComment :=
  { path := d.filename, position := none,
    body := "**样式建议**: 考虑使用更简洁的CSS选择器，避免过度依赖DOM结构。" }

/-- The fixed issue pushed by `addDocIssue` (mockAnalyzer.ts). -/
def docIssue (d : PRDiff) : ReviewIssue :=
  { type := IssueType.improvement, severity := Severity.low,
    message := "文档可以添加更多示例说明",
    suggestion := none, line := none, file := d.filename }

/-- The fixed comment pushed by `addDocIssue` (mockAnalyzer.ts). -/
def docComment (d : PRDiff) : ReviewComment :=
  { path := d.filename, position := none,
    body := "**文档建议**: 考虑添加具体的使用示例，帮助用户更好地理解。" }

/-- Model of `generateSummary(diffs, issues)` of mockAnalyzer.ts. -/
def mockSummary (diffs : List PRDiff) (issues : List ReviewIssue) : String :=
  "# 代码审查摘要\n\n审查了 " ++ toString diffs.length ++ " 个文件，共有 " ++
  toString (diffs.foldl (fun sum d => sum + d.additions) 0) ++ " 行添加和 " ++
  toString (diffs.foldl (fun sum d => sum + d.deletions) 0) ++ " 行删除。\n\n## 发现的问题\n\n- 高严重性问题: " ++
  toString (issues.filter (fun i => i.severity == Severity.high)).length ++
  "\n- 中等严重性问题: " ++
  toString (issues.filter (fun i => i.severity == Severity.medium)).length ++
  "\n- 低严重性问题: " ++
  toString (issues.filter (fun i => i.severity == Severity.low)).length ++
  "\n\n## 总体评价\n\n这是一个模拟的代码审查报告，用于测试和演示目的。在实际实现中，这里将包含基于真实分析的评价。\n\n## 建议\n\n- 修复所有高严重性问题\n- 考虑解决中等严重性问题\n- 低严重性问题可以在未来的迭代中解决"

/-- Model of `MockCodeAnalyzer.analyze(diffs)` (src/analyzer/mockAnalyzer.ts): the
per-file `forEach` dispatch on the filename extension, accumulated in
input order; pure and total. -/
def analyzeMock (diffs : List PRDiff) : ReviewResult :=
  if diffs.isEmpty then
    { comments := [], issues := [], summary := "没有发现差异需要分析" }
  else
    let acc := diffs.foldl
      (fun (acc : List ReviewIssue × List ReviewComment) d =>
        if strEndsWith d.filename ".js" || strEndsWith d.filename ".ts" then
          (acc.1 ++ [jsIssue d], acc.2 ++ [jsComment d])
        else if strEndsWith d.filename ".css" then
          (acc.1 ++ [cssIssue d], acc.2 ++ [cssComment d])
        else if strEndsWith d.filename ".md" || strEndsWith d.filename ".txt" then
          (acc.1 ++ [docIssue d], acc.2 ++ [docComment d])
        else acc)
      ([], [])
    { comments := acc.2, issues := acc.1, summary := mockSummary diffs acc.1 }

/-- The two issues pushed by `generateJsIssues` of the unnamed
mock-analyzer variant. -/
def jsIssuesV1 (d : PRDiff) : List ReviewIssue :=
  [{ type := IssueType.style, severity := Severity.low,
     message := "变量命名应使用驼峰式命名法",
     suggestion := some "将变量重命名为符合驼峰式命名规范的名称",
     line := some 10, file := d.filename },
   { type := IssueType.performance, severity := Severity.medium,
     message := "检测到可能的性能问题，避免在循环中使用高耗时操作",
     suggestion := some "考虑将操作移出循环或使用更高效的方法",
     line := some 25, file := d.filename }]

/-- The two comments pushed by `generateJsIssues` of the variant. -/
def jsCommentsV1 (d : PRDiff) : List ReviewComment :=
  [{ path := d.filename, position := some 10,
     body := "**建议**: 这里的变量命名不符合项目的驼峰式命名规范，应该重命名。" },
   { path := d.filename, position := some 25,
     body := "**性能问题**: 在循环中执行这种操作可能导致性能下降，建议优化此处代码。" }]

/-- Issue of `generateCssIssues` of the variant. -/
def cssIssueV1 (d : PRDiff) : ReviewIssue :=
  { type := IssueType.style, severity := Severity.low,
    message := "CSS选择器过于具体，可能导致维护困难",
    suggestion := some "使用更简洁的选择器或考虑使用类选择器",
    line := some 15, file := d.filename }

/-- The comment of `generateCssIssues` of the variant. -/
def cssCommentV1 (d : PRDiff) : ReviewComment :=
  { path := d.filename, position := some 15,
    body := "**CSS建议**: 这个选择器过于复杂，考虑简化以提高可维护性。" }

/-- Issue of `generateDocIssues` of the variant. -/
def docIssueV1 (d : PRDiff) : ReviewIssue :=
  { type := IssueType.improvement, severity := Severity.low,
    message := "文档可以添加更多示例说明",
    suggestion := some "考虑添加使用示例以提高文档质量",
    line := none, file := d.filename }

/-- The comment of `generateDocIssues` of the variant. -/
def docCommentV1 (d : PRDiff) : ReviewComment :=
  { path := d.filename, position := none,
    body := "**文档建议**: 这份文档可以通过添加更多的使用示例来提高其质量。" }

/-- The unconditional per-file comment of the variant. -/
def genericCommentV1 (d : PRDiff) : ReviewComment :=
  { path := d.filename, position := none,
    body := "已审查文件 `" ++ d.filename ++ "`，有 " ++ toString d.additions ++
      " 行添加和 " ++ toString d.deletions ++ " 行删除。" }

/-- Model of `generateSummary` of the variant (leading and trailing newline). -/
def mockSummaryV1 (diffs : List PRDiff) (issues : List ReviewIssue) : String :=
  "\n# 代码审查摘要\n\n审查了 " ++ toString diffs.length ++ " 个文件，共有 " ++
  toString (diffs.foldl (fun sum d => sum + d.additions) 0) ++ " 行添加和 " ++
  toString (diffs.foldl (fun sum d => sum + d.deletions) 0) ++ " 行删除。\n\n## 发现的问题\n\n- 高严重性问题: " ++
  toString (issues.filter (fun i => i.severity == Severity.high)).length ++
  "\n- 中等严重性问题: " ++
  toString (issues.filter (fun i => i.severity == Severity.medium)).length ++
  "\n- 低严重性问题: " ++
  toString (issues.filter (fun i => i.severity == Severity.low)).length ++
  "\n\n## 总体评价\n\n这是一个模拟的代码审查报告，用于测试和演示目的。在实际实现中，这里将包含基于真实分析的评价。\n\n## 建议\n\n- 修复所有高严重性问题\n- 考虑解决中等严重性问题\n- 低严重性问题可以在未来的迭代中解决\n"

/-- The three hard-coded `mockDiffs` of the variant's
`generateMockResult`. -/
def mockDiffsV1 : List PRDiff :=
  [{ filename := "src/example.ts", patch := none, additions := 15, deletions := 5,
     changes := 20, status := "modified" },
   { filename := "styles/main.css", patch := none, additions := 10, deletions := 2,
     changes := 12, status := "modified" },
   { filename := "README.md", patch := none, additions := 8, deletions := 0,
     changes := 8, status := "modified" }]

/-- Model of `generateMockResult()` of the unnamed mock-analyzer variant: the
fixed rules applied to the three hard-coded mock files (dispatch on the
single extensions `.ts`/`.css`/`.md`), plus one generic comment per
file. -/
def generateMockResultV1 : ReviewResult :=
  let acc := mockDiffsV1.foldl
    (fun (acc : List ReviewIssue × List ReviewComment) d =>
      let acc :=
        if strEndsWith d.filename ".ts" then
          (acc.1 ++ jsIssuesV1 d, acc.2 ++ jsCommentsV1 d)
        else if strEndsWith d.filename ".css" then
          (acc.1 ++ [cssIssueV1 d], acc.2 ++ [cssCommentV1 d])
        else if strEndsWith d.filename ".md" then
          (acc.1 ++ [docIssueV1 d], acc.2 ++ [docCommentV1 d])
        else acc
      (acc.1, acc.2 ++ [genericCommentV1 d]))
    ([], [])
  { comments := acc.2, issues := acc.1, summary := mockSummaryV1 mockDiffsV1 acc.1 }

/-- Model of `MockCodeAnalyzer.analyze(diffs)` of the unnamed variant
(src/unnamed/part_001): for the empty diff list it substitutes the fully
mocked result instead of an empty one. -/
def mockAnalyzeV1 (diffs : List PRDiff) : ReviewResult :=
  if diffs.isEmpty then generateMockResultV1
  else
    let acc := diffs.foldl
      (fun (acc : List ReviewIssue × List ReviewComment) d =>
        let acc :=
          if strEndsWith d.filename ".ts" || strEndsWith d.filename ".js" then
            (acc.1 ++ jsIssuesV1 d, acc.2 ++ jsCommentsV1 d)
          else if strEndsWith d.filename ".css" || strEndsWith d.filename ".scss" then
            (acc.1 ++ [cssIssueV1 d], acc.2 ++ [cssCommentV1 d])
          else if strEndsWith d.filename ".md" || strEndsWith d.filename ".txt" then
            (acc.1 ++ [docIssueV1 d], acc.2 ++ [docCommentV1 d])
          else acc
        (acc.1, acc.2 ++ [genericCommentV1 d]))
      ([], [])
    { comments := acc.2, issues := acc.1, summary := mockSummaryV1 diffs acc.1 }

/-- C7 counterexample: the repository's other deterministic mock-analyzer
variant (the one the claim also cites), given the empty diff list,
returns the canned mock result with 4 issues and 7 comments — not a
result with zero issues and zero comments. -/
theorem c7_mock_variant_counterexample :
    (mockAnalyzeV1 []).issues.length = 4 ∧ (mockAnalyzeV1 []).comments.length = 7 := by
  refine ⟨by decide, by decide⟩

/-- C7 (amended): for the empty diff list the current mock analyzer, and
the AI analyzer whenever a credential is set, both return the fixed
result with zero issues, zero comments and the fixed informational
summary, and the AI analyzer's result does not depend on the network
collaborator at all; the older mock variant instead substitutes canned
mock data. -/
theorem c7_empty_diffs_amended :
    analyzeMock [] =
      { comments := [], issues := [], summary := "没有发现差异需要分析" } ∧
    ∀ (apiKey : String) (fetch fetch' : String → AIResponse), apiKey ≠ "" →
      analyzeAI apiKey [] fetch =
        Except.ok { comments := [], issues := [], summary := "没有发现差异需要分析" } ∧
      analyzeAI apiKey [] fetch = analyzeAI apiKey [] fetch' := by
  refine ⟨rfl, fun apiKey fetch fetch' hk => ⟨?_, ?_⟩⟩
  · unfold analyzeAI
    rw [if_neg hk]
    rfl
  · unfold analyzeAI
    rw [if_neg hk, if_neg hk]
    rfl

/-- A transport-failure response used by the witnesses. -/
def respBad : AIResponse :=
  { ok := false, status := 500, statusText := "Internal Server Error", content := none,
    stringified := "\x7b\x7d" }

/-- A success response used by the witnesses. -/
def respGood : AIResponse :=
  { ok := true, status := 200, statusText := "OK", content := some "哈",
    stringified := "\x7b\x7d" }

theorem c7_amended_witness :
    ("k" : String) ≠ "" ∧
    analyzeAI "k" [] (fun _ => respGood) =
      Except.ok { comments := [], issues := [], summary := "没有发现差异需要分析" } :=
  ⟨by decide,
    (c7_empty_diffs_amended.2 "k" (fun _ => respGood) (fun _ => respBad) (by decide)).1⟩

/-- C8: with no credential the analyzer fails with the configuration
error for every diff list (the empty one included) and independently of
the network collaborator; with a credential and a non-empty diff list, a
non-success response status yields exactly the transport error; and after
a success response it returns `ok` of the parsed reply — parsing is
total, so nothing can throw past that point. -/
theorem c8_error_taxonomy :
    (∀ (diffs : List PRDiff) (fetch : String → AIResponse),
      analyzeAI "" diffs fetch = Except.error "未设置AI API密钥") ∧
    (∀ (diffs : List PRDiff) (fetch fetch' : String → AIResponse),
      analyzeAI "" diffs fetch = analyzeAI "" diffs fetch') ∧
    (∀ (apiKey : String) (diffs : List PRDiff) (fetch : String → AIResponse),
      apiKey ≠ "" → diffs ≠ [] →
      (fetch (preparePromptFromDiffs diffs)).ok = false →
      analyzeAI apiKey diffs fetch =
        Except.error ("AI API响应错误: " ++
          toString (fetch (preparePromptFromDiffs diffs)).status ++ " " ++
          (fetch (preparePromptFromDiffs diffs)).statusText)) ∧
    (∀ (apiKey : String) (diffs : List PRDiff) (fetch : String → AIResponse),
      apiKey ≠ "" → diffs ≠ [] →
      (fetch (preparePromptFromDiffs diffs)).ok = true →
      analyzeAI apiKey diffs fetch =
        Except.ok (parseReply
          ((fetch (preparePromptFromDiffs diffs)).content.getD
            (fetch (preparePromptFromDiffs diffs)).stringified) diffs)) := by
  have hne : ∀ diffs : List PRDiff, diffs ≠ [] → ¬(diffs.isEmpty = true) := by
    intro diffs h
    simp [List.isEmpty_iff, h]
  refine ⟨fun diffs fetch => rfl, fun diffs fetch fetch' => rfl, ?_, ?_⟩
  · intro apiKey diffs fetch hk hd hf
    simp only [analyzeAI]
    rw [if_neg hk, if_neg (hne diffs hd), hf, if_pos rfl]
  · intro apiKey diffs fetch hk hd hf
    simp only [analyzeAI]
    rw [if_neg hk, if_neg (hne diffs hd), hf]
    rw [if_neg (by simp)]

theorem c8_witness :
    analyzeAI "" [] (fun _ => respBad) = Except.error "未设置AI API密钥" ∧
    ("k" : String) ≠ "" ∧ ([sampleEntry] : List PRDiff) ≠ [] ∧
    analyzeAI "k" [sampleEntry] (fun _ => respBad) =
      Except.error ("AI API响应错误: " ++
        toString ((fun _ : String => respBad) (preparePromptFromDiffs [sampleEntry])).status ++
        " " ++
        ((fun _ : String => respBad) (preparePromptFromDiffs [sampleEntry])).statusText) ∧
    analyzeAI "k" [sampleEntry] (fun _ => respGood) =
      Except.ok (parseReply "哈" [sampleEntry]) :=
  ⟨c8_error_taxonomy.1 [] (fun _ => respBad),
    by decide, by decide,
    c8_error_taxonomy.2.2.1 "k" [sampleEntry] (fun _ => respBad)
      (by decide) (by decide) rfl,
    c8_error_taxonomy.2.2.2 "k" [sampleEntry] (fun _ => respGood)
      (by decide) (by decide) rfl⟩

end CodeReview
